import Mathlib

/-!
Shallow embedding of the solitaire (FreeCell) rule engine from
joshniemela/solitaire.  The repository holds two drafts of the engine:

* `src/lib.rs` — a library draft with enum `Rank`, colour-aware tableau
  rule and checked (`Result`-returning) pushes; embedded in namespace `Lib`.
* `src/main.rs` — the playable draft with `u8` ranks (Ace = 1 .. King = 13),
  trait-object stacks, an unconditional `push`, and the `move_card`
  transaction; embedded in namespace `Main`.

Rust `Vec` push/pop act on the END of the vector, so a stack's top is the
LAST element of the embedded list.  `u8` ranks are modelled as `Nat`; no
arithmetic in the embedded code can overflow 255 for the ranks 1..13 that
actually occur, and `rank - 1` (Rust `u8` subtraction, which would panic on
underflow in debug builds) is only ever evaluated at ranks ≥ 1 in the
claims below, where Nat subtraction agrees with it.
-/

set_option maxHeartbeats 1000000

namespace Solitaire

namespace Lib

/-- `Colour` from lib.rs. -/
inductive Colour where
  | Red
  | Black
deriving DecidableEq

/-- `Suit` from lib.rs (declaration order = strum iteration order). -/
inductive Suit where
  | Hearts
  | Diamonds
  | Clubs
  | Spades
deriving DecidableEq

/-- `Suit::colour` from lib.rs. -/
def Suit.colour : Suit → Colour
  | .Hearts => .Red
  | .Diamonds => .Red
  | .Clubs => .Black
  | .Spades => .Black

/-- `Rank` from lib.rs, Ace low through King high. -/
inductive Rank where
  | Ace
  | Two
  | Three
  | Four
  | Five
  | Six
  | Seven
  | Eight
  | Nine
  | Ten
  | Jack
  | Queen
  | King
deriving DecidableEq

/-- `Rank::next` from lib.rs. -/
def Rank.next : Rank → Option Rank
  | .Ace => some .Two
  | .Two => some .Three
  | .Three => some .Four
  | .Four => some .Five
  | .Five => some .Six
  | .Six => some .Seven
  | .Seven => some .Eight
  | .Eight => some .Nine
  | .Nine => some .Ten
  | .Ten => some .Jack
  | .Jack => some .Queen
  | .Queen => some .King
  | .King => none

/-- `Rank::prev` from lib.rs. -/
def Rank.prev : Rank → Option Rank
  | .Ace => none
  | .Two => some .Ace
  | .Three => some .Two
  | .Four => some .Three
  | .Five => some .Four
  | .Six => some .Five
  | .Seven => some .Six
  | .Eight => some .Seven
  | .Nine => some .Eight
  | .Ten => some .Nine
  | .Jack => some .Ten
  | .Queen => some .Jack
  | .King => some .Queen

/-- `Card` from lib.rs. -/
structure Card where
  suit : Suit
  rank : Rank
deriving DecidableEq

/-- strum iteration order of `Suit` (declaration order). -/
def Suit.iter : List Suit := [.Hearts, .Diamonds, .Clubs, .Spades]

/-- strum iteration order of `Rank` (declaration order). -/
def Rank.iter : List Rank :=
  [.Ace, .Two, .Three, .Four, .Five, .Six, .Seven, .Eight, .Nine, .Ten,
   .Jack, .Queen, .King]

/-- `Deck::new` from lib.rs: suit-major nested loops pushing each card. -/
def Deck.new : List Card :=
  (Suit.iter.map fun suit => Rank.iter.map fun rank => Card.mk suit rank).flatten

/-- `Foundation` from lib.rs: an optional top card. -/
structure Foundation where
  top : Option Card
deriving DecidableEq

/-- `Foundation::legal` from lib.rs. -/
def Foundation.legal (f : Foundation) (card : Card) : Bool :=
  match f.top with
  | none => card.rank = Rank.Ace
  | some top =>
      card.suit = top.suit &&
        match top.rank.next with
        | none => false
        | some next => card.rank = next

/-- `Foundation::push` from lib.rs: the pair is (returned `Result`, state of
`self` after the call). -/
def Foundation.push (f : Foundation) (card : Card) : Except Card Unit × Foundation :=
  if f.legal card then (Except.ok (), ⟨some card⟩) else (Except.error card, f)

/-- `Foundation::pop` from lib.rs: clears the slot and returns the stored
card. -/
def Foundation.pop (f : Foundation) : Except Unit Card × Foundation :=
  match f.top with
  | none => (Except.error (), f)
  | some card => (Except.ok card, ⟨none⟩)

/-- `Tableau` from lib.rs: the end of the list is the top of the pile. -/
structure Tableau where
  cards : List Card
deriving DecidableEq

/-- `Tableau::legal` from lib.rs. -/
def Tableau.legal (t : Tableau) (card : Card) : Bool :=
  match t.cards.getLast? with
  | none => true
  | some top =>
      decide (card.suit.colour ≠ top.suit.colour) &&
        match top.rank.prev with
        | none => false
        | some prev => card.rank = prev

/-- `Tableau::push` from lib.rs: the pair is (returned `Result`, state of
`self` after the call). -/
def Tableau.push (t : Tableau) (card : Card) : Except Card Unit × Tableau :=
  if t.legal card then (Except.ok (), ⟨t.cards ++ [card]⟩) else (Except.error card, t)

/-- `Tableau::illegal_push` from lib.rs: unconditional append. -/
def Tableau.illegal_push (t : Tableau) (card : Card) : Tableau :=
  ⟨t.cards ++ [card]⟩

/-- `Tableau::pop` from lib.rs. -/
def Tableau.pop (t : Tableau) : Except Unit Card × Tableau :=
  match t.cards.getLast? with
  | none => (Except.error (), t)
  | some card => (Except.ok card, ⟨t.cards.dropLast⟩)

/-- `Game` from lib.rs (`FREECELL_NUM = 4`, `Suit::COUNT = 4`,
`TABLEAU_NUM = 8`). -/
structure Game where
  freecells : List (Option Card)
  foundations : List Foundation
  tableau : List Tableau
deriving DecidableEq

/-- The dealing loop of lib.rs's `Game::new`:
`tableaus[i % TABLEAU_NUM].illegal_push(card)` for each `(i, card)` of the
shuffled deck, in order. -/
def deal_go : List Card → Nat → List Tableau → List Tableau
  | [], _, ts => ts
  | card :: rest, i, ts =>
      deal_go rest (i + 1) (ts.set (i % 8) ((ts.getD (i % 8) ⟨[]⟩).illegal_push card))

/-- `Game::new` from lib.rs, with the shuffled deck passed in explicitly
(the Rust code shuffles a fresh `Deck::new` with `thread_rng`; the shuffle
is the sole source of randomness and is isolated as this parameter). -/
def Game.new (shuffled : List Card) : Game :=
  { freecells := List.replicate 4 none
    foundations := List.replicate 4 ⟨none⟩
    tableau := deal_go shuffled 0 (List.replicate 8 ⟨[]⟩) }

end Lib

namespace Main

/-- `Suit` from main.rs (declaration order = strum iteration order). -/
inductive Suit where
  | Clubs
  | Diamonds
  | Hearts
  | Spades
deriving DecidableEq

/-- strum iteration order of main.rs's `Suit`. -/
def Suit.iter : List Suit := [.Clubs, .Diamonds, .Hearts, .Spades]

/-- Red/black distinction as used by main.rs (`draw_card` paints a card red
exactly when its suit is Diamonds or Hearts). -/
def Suit.isRed (s : Suit) : Bool :=
  s = Suit.Diamonds || s = Suit.Hearts

/-- `Card` from main.rs: the rank is a `u8`, modelled as `Nat`
(Ace = 1 .. King = 13 in the dealt deck). -/
structure Card where
  suit : Suit
  rank : Nat
deriving DecidableEq

/-- `make_deck` from main.rs: rank-major nested loops (the `suit` parameter
of the Rust function is shadowed by the inner `Suit::iter()` loop and never
used). -/
def make_deck (ranks : List Nat) : List Card :=
  (ranks.map fun rank => Suit.iter.map fun suit => Card.mk suit rank).flatten

/-- The deck `Game::new` builds: `make_deck(Suit::iter(), (1..=13).collect())`. -/
def deck : List Card := make_deck ((List.range 13).map (· + 1))

/-- `rank_to_char` from main.rs. -/
def rank_to_char (rank : Nat) : Char :=
  match rank with
  | 1 => 'A'
  | 10 => 'T'
  | 11 => 'J'
  | 12 => 'Q'
  | 13 => 'K'
  | _ => Char.ofNat (rank + 48)

/-- One step of `deal_cards`'s loop from main.rs: `piles[i].push(card);
i = (i + 1) % num_piles`. -/
def deal_go (numPiles : Nat) : List Card → Nat → List (List Card) → List (List Card)
  | [], _, piles => piles
  | card :: rest, i, piles =>
      deal_go numPiles rest ((i + 1) % numPiles) (piles.set i (piles.getD i [] ++ [card]))

/-- `deal_cards` from main.rs. -/
def deal_cards (cards : List Card) (numPiles : Nat) : List (List Card) :=
  deal_go numPiles cards 0 (List.replicate numPiles [])

/-- `Pile` from main.rs: the end of the list is the top. -/
structure Pile where
  cards : List Card
deriving DecidableEq

/-- `<Pile as Stackable>::legal_push` from main.rs: note it compares SUITS,
not colours, and uses `u8` subtraction on the top rank (ranks in play are
always ≥ 1, where Nat subtraction coincides). -/
def Pile.legal_push (p : Pile) (card : Card) : Bool :=
  match p.cards.getLast? with
  | none => true
  | some top => decide (card.suit ≠ top.suit) && decide (card.rank = top.rank - 1)

/-- `<Pile as Stackable>::push` from main.rs: unconditional append. -/
def Pile.push (p : Pile) (card : Card) : Pile :=
  ⟨p.cards ++ [card]⟩

/-- `<Pile as Stackable>::pop` from main.rs: the pair is (returned card,
state of `self` after the call). -/
def Pile.pop (p : Pile) : Option Card × Pile :=
  match p.cards.getLast? with
  | none => (none, p)
  | some card => (some card, ⟨p.cards.dropLast⟩)

/-- `<Pile as Stackable>::top` from main.rs. -/
def Pile.top (p : Pile) : Option Card :=
  p.cards.getLast?

/-- `Freecell` from main.rs. -/
structure Freecell where
  card : Option Card
deriving DecidableEq

/-- `<Freecell as Stackable>::legal_push` from main.rs. -/
def Freecell.legal_push (f : Freecell) (_card : Card) : Bool :=
  f.card.isNone

/-- `<Freecell as Stackable>::push` from main.rs: unconditional overwrite. -/
def Freecell.push (_f : Freecell) (card : Card) : Freecell :=
  ⟨some card⟩

/-- `<Freecell as Stackable>::pop` from main.rs. -/
def Freecell.pop (f : Freecell) : Option Card × Freecell :=
  (f.card, ⟨none⟩)

/-- `<Freecell as Stackable>::top` from main.rs. -/
def Freecell.top (f : Freecell) : Option Card :=
  f.card

/-- `Foundation` from main.rs. -/
structure Foundation where
  card : Option Card
deriving DecidableEq

/-- `<Foundation as Stackable>::legal_push` from main.rs: an EMPTY foundation
accepts only rank 0 — but the dealt deck's Ace is rank 1. -/
def Foundation.legal_push (f : Foundation) (card : Card) : Bool :=
  match f.card with
  | none => decide (card.rank = 0)
  | some top => decide (card.suit = top.suit) && decide (card.rank = top.rank + 1)

/-- `<Foundation as Stackable>::push` from main.rs: unconditional overwrite. -/
def Foundation.push (_f : Foundation) (card : Card) : Foundation :=
  ⟨some card⟩

/-- `<Foundation as Stackable>::pop` from main.rs: decrements the stored
rank (rank 1 clears the slot) and returns `self.card` AFTER the update —
so the returned card carries the decremented rank, and popping a rank-1
(Ace) foundation returns `None`. -/
def Foundation.pop (f : Foundation) : Option Card × Foundation :=
  match f.card with
  | none => (none, f)
  | some top =>
      if top.rank = 1 then (none, ⟨none⟩)
      else (some ⟨top.suit, top.rank - 1⟩, ⟨some ⟨top.suit, top.rank - 1⟩⟩)

/-- `<Foundation as Stackable>::top` from main.rs. -/
def Foundation.top (f : Foundation) : Option Card :=
  f.card

/-- `Game` from main.rs (`FREECELL_NUM = 4`, `FOUNDATION_NUM = 4`,
`TABLEAU_NUM = 8`; the fixed-size Rust arrays are modelled as lists built
with exactly that many elements). -/
structure Game where
  tableau : List Pile
  freecells : List Freecell
  foundations : List Foundation
deriving DecidableEq

/-- `Game::new` from main.rs, with the shuffled deck passed in explicitly
(the Rust code draws it from `thread_rng`; randomness is the only
non-determinism and is isolated here as a parameter). -/
def Game.new (shuffled : List Card) : Game :=
  { tableau := (deal_cards shuffled 8).map Pile.mk
    freecells := List.replicate 4 ⟨none⟩
    foundations := List.replicate 4 ⟨none⟩ }

/-- `FOUNDATION_KEYS` from main.rs. -/
def FOUNDATION_KEYS : List Char := ['t', 'y', 'u', 'i']

/-- `FREECELL_KEYS` from main.rs. -/
def FREECELL_KEYS : List Char := ['q', 'w', 'e', 'r']

/-- `PILE_KEYS` from main.rs. -/
def PILE_KEYS : List Char := ['1', '2', '3', '4', '5', '6', '7', '8']

/-- Which stack of the game a resolved key denotes; `get_stackable` in
main.rs returns `&mut dyn Stackable`, modelled as this address plus the
per-address accessors below. -/
inductive Addr where
  | foundation (i : Nat)
  | freecell (i : Nat)
  | pile (i : Nat)
deriving DecidableEq

/-- `get_stackable` from main.rs: key-list membership tests and
`position`-based indexing, in the same order. -/
def get_stackable (key : Char) : Option Addr :=
  if key ∈ FOUNDATION_KEYS then some (.foundation (FOUNDATION_KEYS.indexOf key))
  else if key ∈ FREECELL_KEYS then some (.freecell (FREECELL_KEYS.indexOf key))
  else if key ∈ PILE_KEYS then some (.pile (PILE_KEYS.indexOf key))
  else none

/-- Dispatch of `Stackable::top` through an address. -/
def Game.topAt (g : Game) : Addr → Option Card
  | .foundation i => (g.foundations.getD i ⟨none⟩).top
  | .freecell i => (g.freecells.getD i ⟨none⟩).top
  | .pile i => (g.tableau.getD i ⟨[]⟩).top

/-- Dispatch of `Stackable::legal_push` through an address. -/
def Game.legalAt (g : Game) (a : Addr) (card : Card) : Bool :=
  match a with
  | .foundation i => (g.foundations.getD i ⟨none⟩).legal_push card
  | .freecell i => (g.freecells.getD i ⟨none⟩).legal_push card
  | .pile i => (g.tableau.getD i ⟨[]⟩).legal_push card

/-- Dispatch of `Stackable::pop` through an address: (returned card, game
after the call). -/
def Game.popAt (g : Game) : Addr → Option Card × Game
  | .foundation i =>
      let r := (g.foundations.getD i ⟨none⟩).pop
      (r.1, { g with foundations := g.foundations.set i r.2 })
  | .freecell i =>
      let r := (g.freecells.getD i ⟨none⟩).pop
      (r.1, { g with freecells := g.freecells.set i r.2 })
  | .pile i =>
      let r := (g.tableau.getD i ⟨[]⟩).pop
      (r.1, { g with tableau := g.tableau.set i r.2 })

/-- Dispatch of `Stackable::push` through an address. -/
def Game.pushAt (g : Game) (a : Addr) (card : Card) : Game :=
  match a with
  | .foundation i =>
      { g with foundations := g.foundations.set i ((g.foundations.getD i ⟨none⟩).push card) }
  | .freecell i =>
      { g with freecells := g.freecells.set i ((g.freecells.getD i ⟨none⟩).push card) }
  | .pile i =>
      { g with tableau := g.tableau.set i ((g.tableau.getD i ⟨[]⟩).push card) }

/-- Outcome of `move_card` from main.rs: `Ok(())`, `Err(())` (with the
final state of the mutated-in-place game), or the `.unwrap()` panic on the
pop result. -/
inductive MoveResult where
  | ok (g : Game)
  | err (g : Game)
  | panicked
deriving DecidableEq

/-- `move_card` from main.rs.  `get_stackable` is pure in the key, so the
Rust code's repeated re-resolution of the same key (a borrow-checker dance)
is collapsed into one resolution per key. -/
def move_card (g : Game) (fromKey toKey : Char) : MoveResult :=
  match get_stackable fromKey with
  | none => .err g
  | some src =>
    match g.topAt src with
    | none => .err g
    | some card =>
      match get_stackable toKey with
      | none => .err g
      | some dst =>
        if g.legalAt dst card then
          match g.popAt src with
          | (some popped, g1) => .ok (g1.pushAt dst popped)
          | (none, _) => .panicked
        else .err g

/-- The game state carried out of a `move_card` call, `none` on panic. -/
def MoveResult.state? : MoveResult → Option Game
  | .ok g => some g
  | .err g => some g
  | .panicked => none

/-- Run one attempted move on a (not yet crashed) game. -/
def stepO (og : Option Game) (m : Char × Char) : Option Game :=
  og.bind fun g => (move_card g m.1 m.2).state?

/-- A syntactically well-formed game state whose first foundation holds the
Ace (rank 1) of clubs, everything else empty.  Unreachable from a fresh deal
(no rank-0 card exists so no foundation is ever started), but a legitimate
value of the `Game` state type. -/
def aceFoundationGame : Game :=
  Game.mk (List.replicate 8 ⟨[]⟩) (List.replicate 4 ⟨none⟩)
    [⟨some ⟨Suit.Clubs, 1⟩⟩, ⟨none⟩, ⟨none⟩, ⟨none⟩]

/-- Cards physically held by a tableau pile. -/
def Pile.mcards (p : Pile) : Multiset Card :=
  (p.cards : Multiset Card)

/-- Cards held by a freecell. -/
def Freecell.mcards (f : Freecell) : Multiset Card :=
  match f.card with
  | none => 0
  | some c => {c}

/-- Cards a foundation represents: per the spec, a foundation storing
rank `r` of suit `s` holds the whole ascending run `(s,1) .. (s,r)`. -/
def Foundation.mcards (f : Foundation) : Multiset Card :=
  match f.card with
  | none => 0
  | some top => ((List.range top.rank).map fun k => Card.mk top.suit (k + 1) : Multiset Card)

/-- Every card combination held anywhere in the game. -/
def Game.allCards (g : Game) : Multiset Card :=
  (g.tableau.map Pile.mcards).sum + (g.freecells.map Freecell.mcards).sum +
    (g.foundations.map Foundation.mcards).sum

/-- State invariant maintained by `move_card` from a fresh deal: the stack
counts are fixed, every foundation is empty (the dealt deck has no rank-0
card, so `Foundation::legal_push` can never admit a first card), and every
card in play has rank ≥ 1. -/
def Game.Inv (g : Game) : Prop :=
  g.tableau.length = 8 ∧ g.freecells.length = 4 ∧ g.foundations.length = 4 ∧
    (∀ f ∈ g.foundations, f.card = none) ∧ (∀ c ∈ g.allCards, 1 ≤ c.rank)

end Main

/-! ## Helper lemmas for the conservation proof -/

namespace Main

lemma getD_set_ne {α : Type} (d x : α) :
    ∀ (l : List α) (i j : Nat), i ≠ j → (l.set i x).getD j d = l.getD j d := by
  intro l
  induction l with
  | nil => intro i j _; cases i <;> rfl
  | cons a as ih =>
      intro i j hij
      cases i with
      | zero =>
          cases j with
          | zero => exact absurd rfl hij
          | succ m => rfl
      | succ n =>
          cases j with
          | zero => rfl
          | succ m => exact ih n m (by omega)

lemma getD_mem_of_lt {α : Type} (d : α) :
    ∀ (l : List α) (i : Nat), i < l.length → l.getD i d ∈ l := by
  intro l
  induction l with
  | nil => intro i h; simp at h
  | cons a as ih =>
      intro i h
      cases i with
      | zero => exact List.mem_cons_self a as
      | succ n =>
          exact List.mem_cons_of_mem a (ih n (by simpa using h))

lemma map_sum_set {α β : Type} (f : α → Multiset β) :
    ∀ (l : List α) (i : Nat) (x d : α), i < l.length →
      ((l.set i x).map f).sum + f (l.getD i d) = (l.map f).sum + f x := by
  intro l
  induction l with
  | nil => intro i x d h; simp at h
  | cons a as ih =>
      intro i x d h
      cases i with
      | zero =>
          show (f x + (as.map f).sum) + f a = (f a + (as.map f).sum) + f x
          abel
      | succ n =>
          show (f a + ((as.set n x).map f).sum) + f (as.getD n d)
              = (f a + (as.map f).sum) + f x
          rw [add_assoc, ih n x d (by simpa using h), ← add_assoc]

lemma mem_map_sum {α β : Type} (f : α → Multiset β) :
    ∀ (l : List α) (a : α), a ∈ l → ∀ c, c ∈ f a → c ∈ (l.map f).sum := by
  intro l
  induction l with
  | nil => intro a h; cases h
  | cons x xs ih =>
      intro a h c hc
      simp only [List.map_cons, List.sum_cons, Multiset.mem_add]
      rcases List.mem_cons.mp h with rfl | h'
      · exact Or.inl hc
      · exact Or.inr (ih a h' c hc)

lemma coe_dropLast_add_getLast {α : Type} (l : List α) (c : α)
    (h : l.getLast? = some c) : (l : Multiset α) = (l.dropLast : Multiset α) + {c} := by
  have hne : l ≠ [] := by rintro rfl; cases h
  have hc : l.getLast hne = c := by
    rw [List.getLast?_eq_getLast l hne] at h
    injection h
  conv_lhs => rw [← List.dropLast_append_getLast hne]
  rw [hc, ← Multiset.coe_add, Multiset.coe_singleton]

lemma get_stackable_foundation_lt {k : Char} {i : Nat}
    (h : get_stackable k = some (.foundation i)) : i < 4 := by
  unfold get_stackable at h
  split_ifs at h with h1 h2 h3
  · cases h
    simp only [FOUNDATION_KEYS, List.mem_cons, List.not_mem_nil, or_false] at h1
    rcases h1 with rfl | rfl | rfl | rfl <;> decide
  · simp at h
  · simp at h

lemma get_stackable_freecell_lt {k : Char} {i : Nat}
    (h : get_stackable k = some (.freecell i)) : i < 4 := by
  unfold get_stackable at h
  split_ifs at h with h1 h2 h3
  · simp at h
  · cases h
    simp only [FREECELL_KEYS, List.mem_cons, List.not_mem_nil, or_false] at h2
    rcases h2 with rfl | rfl | rfl | rfl <;> decide
  · simp at h

lemma get_stackable_pile_lt {k : Char} {i : Nat}
    (h : get_stackable k = some (.pile i)) : i < 8 := by
  unfold get_stackable at h
  split_ifs at h with h1 h2 h3
  · simp at h
  · simp at h
  · cases h
    simp only [PILE_KEYS, List.mem_cons, List.not_mem_nil, or_false] at h3
    rcases h3 with rfl | rfl | rfl | rfl | rfl | rfl | rfl | rfl <;> decide

lemma deck_rank_pos : ∀ c ∈ deck, 1 ≤ c.rank := by
  intro c hc
  have hall : (deck.all fun c => decide (1 ≤ c.rank)) = true := by decide
  simpa using List.all_eq_true.mp hall c hc

lemma topAt_freecell (g : Game) (i : Nat) :
    g.topAt (.freecell i) = (g.freecells.getD i ⟨none⟩).card := rfl

lemma topAt_pile (g : Game) (i : Nat) :
    g.topAt (.pile i) = (g.tableau.getD i ⟨[]⟩).cards.getLast? := rfl

lemma legalAt_foundation (g : Game) (j : Nat) (c : Card) :
    g.legalAt (.foundation j) c = (g.foundations.getD j ⟨none⟩).legal_push c := rfl

lemma legalAt_freecell (g : Game) (j : Nat) (c : Card) :
    g.legalAt (.freecell j) c = (g.freecells.getD j ⟨none⟩).legal_push c := rfl

lemma legalAt_pile (g : Game) (j : Nat) (c : Card) :
    g.legalAt (.pile j) c = (g.tableau.getD j ⟨[]⟩).legal_push c := rfl

lemma popAt_freecell (g : Game) (i : Nat) :
    g.popAt (.freecell i) =
      ((g.freecells.getD i ⟨none⟩).card,
        Game.mk g.tableau (g.freecells.set i ⟨none⟩) g.foundations) := rfl

lemma popAt_pile (g : Game) (i : Nat) (c : Card)
    (h : (g.tableau.getD i ⟨[]⟩).cards.getLast? = some c) :
    g.popAt (.pile i) =
      (some c, Game.mk (g.tableau.set i ⟨(g.tableau.getD i ⟨[]⟩).cards.dropLast⟩)
        g.freecells g.foundations) := by
  simp only [Game.popAt, Pile.pop]
  rw [h]

lemma freecell_mcards_some {f : Freecell} {c : Card} (h : f.card = some c) :
    f.mcards = {c} := by
  cases f with | mk fc => cases h; rfl

lemma freecell_mcards_none {f : Freecell} (h : f.card = none) : f.mcards = 0 := by
  cases f with | mk fc => cases h; rfl

lemma foundation_legal_push_none {f : Foundation} (h : f.card = none) (c : Card) :
    f.legal_push c = decide (c.rank = 0) := by
  cases f with | mk fc => cases h; rfl

lemma freecell_legal_push_iff {f : Freecell} {c : Card} :
    f.legal_push c = true ↔ f.card = none := by
  cases f with | mk fc => cases fc <;> simp [Freecell.legal_push]

lemma mem_allCards_of_freecell {g : Game} {i : Nat} {c : Card}
    (hi : i < g.freecells.length) (h : (g.freecells.getD i ⟨none⟩).card = some c) :
    c ∈ g.allCards := by
  have hmem : g.freecells.getD i ⟨none⟩ ∈ g.freecells := getD_mem_of_lt _ _ _ hi
  have hsum : c ∈ (g.freecells.map Freecell.mcards).sum :=
    mem_map_sum _ _ _ hmem c
      (by rw [freecell_mcards_some h]; exact Multiset.mem_singleton_self c)
  simp only [Game.allCards, Multiset.mem_add]
  exact Or.inl (Or.inr hsum)

lemma mem_allCards_of_pile {g : Game} {i : Nat} {c : Card}
    (hi : i < g.tableau.length) (h : (g.tableau.getD i ⟨[]⟩).cards.getLast? = some c) :
    c ∈ g.allCards := by
  have hmem : g.tableau.getD i ⟨[]⟩ ∈ g.tableau := getD_mem_of_lt _ _ _ hi
  have hc : c ∈ (g.tableau.getD i ⟨[]⟩).mcards := by
    show c ∈ ((g.tableau.getD i ⟨[]⟩).cards : Multiset Card)
    rw [coe_dropLast_add_getLast _ _ h]
    exact Multiset.mem_add.mpr (Or.inr (Multiset.mem_singleton_self c))
  have hsum : c ∈ (g.tableau.map Pile.mcards).sum := mem_map_sum _ _ _ hmem c hc
  simp only [Game.allCards, Multiset.mem_add]
  exact Or.inl (Or.inl hsum)

/-- Every single `move_card` call on a state satisfying the invariant
returns (never panics), preserves the invariant, and conserves the multiset
of cards in play. -/
lemma move_card_preserves (g : Game) (hInv : g.Inv) (fk tk : Char) :
    ∃ g', (move_card g fk tk).state? = some g' ∧ g'.Inv ∧ g'.allCards = g.allCards := by
  obtain ⟨hT, hF, hFd, hfnd, hrank⟩ := hInv
  cases hsrc : get_stackable fk with
  | none =>
      exact ⟨g, by simp only [move_card, hsrc, MoveResult.state?],
        ⟨hT, hF, hFd, hfnd, hrank⟩, rfl⟩
  | some src =>
  cases htop : g.topAt src with
  | none =>
      exact ⟨g, by simp only [move_card, hsrc, htop, MoveResult.state?],
        ⟨hT, hF, hFd, hfnd, hrank⟩, rfl⟩
  | some c =>
  cases hdst : get_stackable tk with
  | none =>
      exact ⟨g, by simp only [move_card, hsrc, htop, hdst, MoveResult.state?],
        ⟨hT, hF, hFd, hfnd, hrank⟩, rfl⟩
  | some dst =>
  cases hleg : g.legalAt dst c with
  | false =>
      exact ⟨g, by
        simp only [move_card, hsrc, htop, hdst, hleg, Bool.false_eq_true, if_false,
          MoveResult.state?], ⟨hT, hF, hFd, hfnd, hrank⟩, rfl⟩
  | true =>
  cases src with
  | foundation i =>
      exfalso
      have hi : i < g.foundations.length := by
        rw [hFd]; exact get_stackable_foundation_lt hsrc
      have hnone : (g.foundations.getD i ⟨none⟩).card = none :=
        hfnd _ (getD_mem_of_lt _ _ _ hi)
      have hsome : (g.foundations.getD i ⟨none⟩).card = some c := htop
      rw [hnone] at hsome
      cases hsome
  | freecell i =>
      have hi : i < g.freecells.length := by
        rw [hF]; exact get_stackable_freecell_lt hsrc
      have htop' : (g.freecells.getD i ⟨none⟩).card = some c := htop
      have hcmem : c ∈ g.allCards := mem_allCards_of_freecell hi htop'
      have hcrank : 1 ≤ c.rank := hrank c hcmem
      have hpop : g.popAt (.freecell i) =
          (some c, Game.mk g.tableau (g.freecells.set i ⟨none⟩) g.foundations) := by
        rw [popAt_freecell, htop']
      have e1 := map_sum_set Freecell.mcards g.freecells i ⟨none⟩ ⟨none⟩ hi
      rw [freecell_mcards_some htop',
        show Freecell.mcards ⟨none⟩ = 0 from rfl, add_zero] at e1
      cases dst with
      | foundation j =>
          exfalso
          have hj : j < g.foundations.length := by
            rw [hFd]; exact get_stackable_foundation_lt hdst
          have hjnone : (g.foundations.getD j ⟨none⟩).card = none :=
            hfnd _ (getD_mem_of_lt _ _ _ hj)
          have h0 : decide (c.rank = 0) = true := by
            rw [← foundation_legal_push_none hjnone c, ← legalAt_foundation]; exact hleg
          simp only [decide_eq_true_eq] at h0
          omega
      | freecell j =>
          have hj : j < g.freecells.length := by
            rw [hF]; exact get_stackable_freecell_lt hdst
          have hjnone : (g.freecells.getD j ⟨none⟩).card = none := by
            have hl := hleg
            rw [legalAt_freecell] at hl
            exact freecell_legal_push_iff.mp hl
          have hij : i ≠ j := by
            rintro rfl
            rw [htop'] at hjnone
            cases hjnone
          have hj2 : j < (g.freecells.set i (⟨none⟩ : Freecell)).length := by
            rw [List.length_set]; exact hj
          have e2 := map_sum_set Freecell.mcards (g.freecells.set i ⟨none⟩) j
            ⟨some c⟩ ⟨none⟩ hj2
          rw [getD_set_ne _ _ _ _ _ hij, freecell_mcards_none hjnone, add_zero,
            show Freecell.mcards ⟨some c⟩ = ({c} : Multiset Card) from rfl, e1] at e2
          have hmv : move_card g fk tk = .ok (Game.mk g.tableau
              ((g.freecells.set i ⟨none⟩).set j ⟨some c⟩) g.foundations) := by
            simp only [move_card, hsrc, htop, hdst, hleg, if_true, hpop]
            rfl
          have hA : (Game.mk g.tableau ((g.freecells.set i ⟨none⟩).set j ⟨some c⟩)
              g.foundations).allCards = g.allCards := by
            simp only [Game.allCards]
            rw [e2]
          refine ⟨_, by rw [hmv]; rfl, ?_, hA⟩
          exact ⟨hT, by simp [List.length_set, hF], hFd, hfnd,
            fun x hx => hrank x (by rw [hA] at hx; exact hx)⟩
      | pile j =>
          have hj : j < g.tableau.length := by
            rw [hT]; exact get_stackable_pile_lt hdst
          have e2 := map_sum_set Pile.mcards g.tableau j
            ⟨(g.tableau.getD j ⟨[]⟩).cards ++ [c]⟩ ⟨[]⟩ hj
          rw [show Pile.mcards ⟨(g.tableau.getD j ⟨[]⟩).cards ++ [c]⟩
              = (g.tableau.getD j ⟨[]⟩).mcards + {c} by
            show ((g.tableau.getD j ⟨[]⟩).cards ++ [c] : Multiset Card) = _
            rw [← Multiset.coe_add, Multiset.coe_singleton]; rfl] at e2
          have e2' : ((g.tableau.set j ⟨(g.tableau.getD j ⟨[]⟩).cards ++ [c]⟩).map
              Pile.mcards).sum = (g.tableau.map Pile.mcards).sum + {c} := by
            have h2 : ((g.tableau.set j ⟨(g.tableau.getD j ⟨[]⟩).cards ++ [c]⟩).map
                Pile.mcards).sum + (g.tableau.getD j ⟨[]⟩).mcards
                = ((g.tableau.map Pile.mcards).sum + {c})
                  + (g.tableau.getD j ⟨[]⟩).mcards := by
              rw [e2]; abel
            exact add_right_cancel h2
          have hmv : move_card g fk tk = .ok (Game.mk
              (g.tableau.set j ⟨(g.tableau.getD j ⟨[]⟩).cards ++ [c]⟩)
              (g.freecells.set i ⟨none⟩) g.foundations) := by
            simp only [move_card, hsrc, htop, hdst, hleg, if_true, hpop]
            rfl
          have hA : (Game.mk (g.tableau.set j ⟨(g.tableau.getD j ⟨[]⟩).cards ++ [c]⟩)
              (g.freecells.set i ⟨none⟩) g.foundations).allCards = g.allCards := by
            simp only [Game.allCards]
            rw [e2', ← e1]
            abel
          refine ⟨_, by rw [hmv]; rfl, ?_, hA⟩
          exact ⟨by simp [List.length_set, hT], by simp [List.length_set, hF], hFd, hfnd,
            fun x hx => hrank x (by rw [hA] at hx; exact hx)⟩
  | pile i =>
      have hi : i < g.tableau.length := by
        rw [hT]; exact get_stackable_pile_lt hsrc
      have htop' : (g.tableau.getD i ⟨[]⟩).cards.getLast? = some c := htop
      have hcmem : c ∈ g.allCards := mem_allCards_of_pile hi htop'
      have hcrank : 1 ≤ c.rank := hrank c hcmem
      have hpop := popAt_pile g i c htop'
      have hmc : (g.tableau.getD i ⟨[]⟩).mcards
          = Pile.mcards ⟨(g.tableau.getD i ⟨[]⟩).cards.dropLast⟩ + {c} := by
        show ((g.tableau.getD i ⟨[]⟩).cards : Multiset Card) = _
        rw [coe_dropLast_add_getLast _ _ htop']
        rfl
      have e1 := map_sum_set Pile.mcards g.tableau i
        ⟨(g.tableau.getD i ⟨[]⟩).cards.dropLast⟩ ⟨[]⟩ hi
      rw [hmc] at e1
      have e1' : ((g.tableau.set i ⟨(g.tableau.getD i ⟨[]⟩).cards.dropLast⟩).map
          Pile.mcards).sum + {c} = (g.tableau.map Pile.mcards).sum := by
        have h2 : (((g.tableau.set i ⟨(g.tableau.getD i ⟨[]⟩).cards.dropLast⟩).map
            Pile.mcards).sum + ({c} : Multiset Card))
            + Pile.mcards ⟨(g.tableau.getD i ⟨[]⟩).cards.dropLast⟩
            = (g.tableau.map Pile.mcards).sum
              + Pile.mcards ⟨(g.tableau.getD i ⟨[]⟩).cards.dropLast⟩ := by
          rw [← e1]; abel
        exact add_right_cancel h2
      cases dst with
      | foundation j =>
          exfalso
          have hj : j < g.foundations.length := by
            rw [hFd]; exact get_stackable_foundation_lt hdst
          have hjnone : (g.foundations.getD j ⟨none⟩).card = none :=
            hfnd _ (getD_mem_of_lt _ _ _ hj)
          have h0 : decide (c.rank = 0) = true := by
            rw [← foundation_legal_push_none hjnone c, ← legalAt_foundation]; exact hleg
          simp only [decide_eq_true_eq] at h0
          omega
      | freecell j =>
          have hj : j < g.freecells.length := by
            rw [hF]; exact get_stackable_freecell_lt hdst
          have hjnone : (g.freecells.getD j ⟨none⟩).card = none := by
            have hl := hleg
            rw [legalAt_freecell] at hl
            exact freecell_legal_push_iff.mp hl
          have e2 := map_sum_set Freecell.mcards g.freecells j ⟨some c⟩ ⟨none⟩ hj
          rw [freecell_mcards_none hjnone, add_zero,
            show Freecell.mcards ⟨some c⟩ = ({c} : Multiset Card) from rfl] at e2
          have hmv : move_card g fk tk = .ok (Game.mk
              (g.tableau.set i ⟨(g.tableau.getD i ⟨[]⟩).cards.dropLast⟩)
              (g.freecells.set j ⟨some c⟩) g.foundations) := by
            simp only [move_card, hsrc, htop, hdst, hleg, if_true, hpop]
            rfl
          have hA : (Game.mk (g.tableau.set i ⟨(g.tableau.getD i ⟨[]⟩).cards.dropLast⟩)
              (g.freecells.set j ⟨some c⟩) g.foundations).allCards = g.allCards := by
            simp only [Game.allCards]
            rw [e2, ← e1']
            abel
          refine ⟨_, by rw [hmv]; rfl, ?_, hA⟩
          exact ⟨by simp [List.length_set, hT], by simp [List.length_set, hF], hFd, hfnd,
            fun x hx => hrank x (by rw [hA] at hx; exact hx)⟩
      | pile j =>
          have hj : j < g.tableau.length := by
            rw [hT]; exact get_stackable_pile_lt hdst
          have hij : i ≠ j := by
            rintro rfl
            have hlp : (g.tableau.getD i ⟨[]⟩).legal_push c = true := hleg
            rw [Pile.legal_push, htop'] at hlp
            simp at hlp
          have hgd : (g.tableau.set i
                (⟨(g.tableau.getD i ⟨[]⟩).cards.dropLast⟩ : Pile)).getD j ⟨[]⟩
              = g.tableau.getD j ⟨[]⟩ := getD_set_ne _ _ _ _ _ hij
          have hj2 : j < (g.tableau.set i
              (⟨(g.tableau.getD i ⟨[]⟩).cards.dropLast⟩ : Pile)).length := by
            rw [List.length_set]; exact hj
          have e2 := map_sum_set Pile.mcards
            (g.tableau.set i ⟨(g.tableau.getD i ⟨[]⟩).cards.dropLast⟩) j
            ⟨(g.tableau.getD j ⟨[]⟩).cards ++ [c]⟩ ⟨[]⟩ hj2
          rw [hgd, show Pile.mcards ⟨(g.tableau.getD j ⟨[]⟩).cards ++ [c]⟩
              = (g.tableau.getD j ⟨[]⟩).mcards + {c} by
            show ((g.tableau.getD j ⟨[]⟩).cards ++ [c] : Multiset Card) = _
            rw [← Multiset.coe_add, Multiset.coe_singleton]; rfl] at e2
          have e2' : (((g.tableau.set i ⟨(g.tableau.getD i ⟨[]⟩).cards.dropLast⟩).set j
              ⟨(g.tableau.getD j ⟨[]⟩).cards ++ [c]⟩).map Pile.mcards).sum
              = (g.tableau.map Pile.mcards).sum := by
            have h2 : ((((g.tableau.set i ⟨(g.tableau.getD i ⟨[]⟩).cards.dropLast⟩).set j
                ⟨(g.tableau.getD j ⟨[]⟩).cards ++ [c]⟩).map Pile.mcards).sum)
                + (g.tableau.getD j ⟨[]⟩).mcards
                = (g.tableau.map Pile.mcards).sum + (g.tableau.getD j ⟨[]⟩).mcards := by
              rw [e2, ← e1']; abel
            exact add_right_cancel h2
          have hmv : move_card g fk tk = .ok (Game.mk
              ((g.tableau.set i ⟨(g.tableau.getD i ⟨[]⟩).cards.dropLast⟩).set j
                ⟨(g.tableau.getD j ⟨[]⟩).cards ++ [c]⟩)
              g.freecells g.foundations) := by
            simp only [move_card, hsrc, htop, hdst, hleg, if_true, hpop]
            rw [show (Game.mk (g.tableau.set i
                ⟨(g.tableau.getD i ⟨[]⟩).cards.dropLast⟩) g.freecells
                g.foundations).pushAt (.pile j) c
              = Game.mk ((g.tableau.set i ⟨(g.tableau.getD i ⟨[]⟩).cards.dropLast⟩).set j
                ⟨((g.tableau.set i ⟨(g.tableau.getD i ⟨[]⟩).cards.dropLast⟩).getD j
                  ⟨[]⟩).cards ++ [c]⟩) g.freecells g.foundations from rfl, hgd]
          have hA : (Game.mk ((g.tableau.set i
                ⟨(g.tableau.getD i ⟨[]⟩).cards.dropLast⟩).set j
                ⟨(g.tableau.getD j ⟨[]⟩).cards ++ [c]⟩)
              g.freecells g.foundations).allCards = g.allCards := by
            simp only [Game.allCards]
            rw [e2']
          refine ⟨_, by rw [hmv]; rfl, ?_, hA⟩
          exact ⟨by simp [List.length_set, hT], hF, hFd, hfnd,
            fun x hx => hrank x (by rw [hA] at hx; exact hx)⟩


lemma foundation_mcards_none {f : Foundation} (h : f.card = none) : f.mcards = 0 := by
  cases f with | mk fc => cases h; rfl

lemma deal_go_length (n : Nat) :
    ∀ (cs : List Card) (i : Nat) (piles : List (List Card)),
      (deal_go n cs i piles).length = piles.length := by
  intro cs
  induction cs with
  | nil => intro i piles; rfl
  | cons c rest ih =>
      intro i piles
      rw [deal_go, ih, List.length_set]

lemma deal_go_sum (n : Nat) (hn : 0 < n) :
    ∀ (cs : List Card) (i : Nat) (piles : List (List Card)),
      piles.length = n → i < n →
      ((deal_go n cs i piles).map (fun l : List Card => (l : Multiset Card))).sum
        = (piles.map (fun l : List Card => (l : Multiset Card))).sum
          + (cs : Multiset Card) := by
  intro cs
  induction cs with
  | nil =>
      intro i piles hlen hi
      simp [deal_go]
  | cons c rest ih =>
      intro i piles hlen hi
      have hi' : i < piles.length := by omega
      have hlen' : (piles.set i (piles.getD i [] ++ [c])).length = n := by
        rw [List.length_set]; exact hlen
      have hmod : (i + 1) % n < n := Nat.mod_lt _ hn
      rw [deal_go, ih ((i + 1) % n) _ hlen' hmod]
      have e := @map_sum_set (List Card) Card (fun l : List Card => (l : Multiset Card))
        piles i (piles.getD i [] ++ [c]) [] hi'
      simp only at e
      rw [show ((piles.getD i [] ++ [c] : List Card) : Multiset Card)
          = (piles.getD i [] : Multiset Card) + {c} by
        rw [← Multiset.coe_add, Multiset.coe_singleton]] at e
      have e' : ((piles.set i (piles.getD i [] ++ [c])).map
          (fun l : List Card => (l : Multiset Card))).sum
          = (piles.map (fun l : List Card => (l : Multiset Card))).sum + {c} := by
        have h2 : ((piles.set i (piles.getD i [] ++ [c])).map
            (fun l : List Card => (l : Multiset Card))).sum
            + (piles.getD i [] : Multiset Card)
            = ((piles.map (fun l : List Card => (l : Multiset Card))).sum + {c})
              + (piles.getD i [] : Multiset Card) := by
          rw [e]; abel
        exact add_right_cancel h2
      rw [e', show ((c :: rest : List Card) : Multiset Card)
          = {c} + (rest : Multiset Card) by
        rw [← Multiset.cons_coe, Multiset.singleton_add]]
      abel

lemma allCards_new (cs : List Card) : (Game.new cs).allCards = (cs : Multiset Card) := by
  unfold Game.new Game.allCards deal_cards
  rw [List.map_map,
    show (Pile.mcards ∘ Pile.mk) = (fun l : List Card => (l : Multiset Card)) from rfl,
    deal_go_sum 8 (by norm_num) cs 0 (List.replicate 8 []) (by simp) (by norm_num)]
  simp [freecell_mcards_none, foundation_mcards_none]

lemma Inv_new (cs : List Card) (hrank : ∀ c ∈ cs, 1 ≤ c.rank) : (Game.new cs).Inv := by
  refine ⟨?_, by simp [Game.new], by simp [Game.new], ?_, ?_⟩
  · show ((deal_cards cs 8).map Pile.mk).length = 8
    rw [List.length_map]
    unfold deal_cards
    rw [deal_go_length]
    simp
  · intro f hf
    have hfe : f = (⟨none⟩ : Foundation) := List.eq_of_mem_replicate hf
    rw [hfe]
  · intro c hc
    rw [allCards_new] at hc
    exact hrank c (Multiset.mem_coe.mp hc)

lemma foldl_stepO_conserves :
    ∀ (moves : List (Char × Char)) (g : Game), g.Inv →
      (moves.foldl stepO (some g)).map Game.allCards = some g.allCards := by
  intro moves
  induction moves with
  | nil => intro g _; rfl
  | cons m rest ih =>
      intro g hInv
      obtain ⟨g1, hst, hInv1, hA⟩ := move_card_preserves g hInv m.1 m.2
      rw [List.foldl_cons]
      have hstep : stepO (some g) m = some g1 := by
        simp [stepO, hst]
      rw [hstep, ih g1 hInv1, hA]

end Main

/-! ## Claim theorems -/

/-- C10: the rank adjacency helpers of lib.rs are mutually inverse: `next r
= some s` exactly when `prev s = some r`, hence `prev ∘ next` is the
identity below King and `next ∘ prev` the identity above Ace. -/
theorem c10_rank_adjacency :
    ∀ r s : Lib.Rank,
      (r.next = some s ↔ s.prev = some r) ∧
      (r ≠ Lib.Rank.King → r.next.bind Lib.Rank.prev = some r) ∧
      (r ≠ Lib.Rank.Ace → r.prev.bind Lib.Rank.next = some r) := by
  intro r s
  cases r <;> cases s <;> decide

theorem c10_rank_adjacency_witness :
    Lib.Rank.Two.next.bind Lib.Rank.prev = some Lib.Rank.Two ∧
      Lib.Rank.Two.prev.bind Lib.Rank.next = some Lib.Rank.Two :=
  ⟨(c10_rank_adjacency Lib.Rank.Two Lib.Rank.Three).2.1 (by decide),
   (c10_rank_adjacency Lib.Rank.Two Lib.Rank.Three).2.2 (by decide)⟩

/-- C9: both deck constructors produce exactly 52 distinct cards — every
suit × rank combination (ranks 1..13 in main.rs) appears, each exactly once
(`Nodup` + length 52 + full coverage), with no failure mode (they are total
functions). -/
theorem c9_deck_canonical :
    Main.deck.length = 52 ∧ Main.deck.Nodup ∧
      (Main.deck.all fun c => decide (1 ≤ c.rank) && decide (c.rank ≤ 13)) = true ∧
      ((List.range 13).all fun r => Main.Suit.iter.all fun s =>
        decide (Main.Card.mk s (r + 1) ∈ Main.deck)) = true ∧
      (∀ s : Main.Suit, s ∈ Main.Suit.iter) ∧
      Lib.Deck.new.length = 52 ∧ Lib.Deck.new.Nodup ∧
      (Lib.Suit.iter.all fun s => Lib.Rank.iter.all fun r =>
        decide (Lib.Card.mk s r ∈ Lib.Deck.new)) = true ∧
      (∀ s : Lib.Suit, s ∈ Lib.Suit.iter) ∧ (∀ r : Lib.Rank, r ∈ Lib.Rank.iter) := by
  refine ⟨by decide, by decide, by decide, by decide, ?_, by decide, by decide, by decide,
    ?_, ?_⟩
  · intro s; cases s <;> decide
  · intro s; cases s <;> decide
  · intro r; cases r <;> decide

/-- C4 (code bug): in main.rs the dealt deck's Ace is rank 1 (as
`rank_to_char` confirms) and no card has rank 0, yet an empty foundation's
`legal_push` accepts only rank 0 — so pushing an Ace onto an empty
foundation FAILS, and no foundation can ever be started.  The lib.rs
draft accepts the Ace as the claim states. -/
theorem c4_ace_unpushable :
    Main.Foundation.legal_push ⟨none⟩ ⟨Main.Suit.Hearts, 1⟩ = false ∧
      Main.rank_to_char 1 = 'A' ∧
      (Main.deck.all fun c => decide (c.rank ≠ 0)) = true ∧
      Lib.Foundation.legal ⟨none⟩ ⟨Lib.Suit.Hearts, Lib.Rank.Ace⟩ = true := by
  decide

/-- C5 (code bug): main.rs's `Foundation::pop` returns `self.card` AFTER
decrementing, so popping a foundation holding rank 3 reports rank 2 (not
the departing rank 3), and popping one holding the Ace reports `None`
(indistinguishable from the empty-foundation failure).  The lib.rs draft
does not decrement at all: popping a foundation holding the King empties it
completely instead of leaving the Queen. -/
theorem c5_pop_reports_decremented_rank :
    Main.Foundation.pop ⟨some ⟨Main.Suit.Clubs, 3⟩⟩ =
      (some ⟨Main.Suit.Clubs, 2⟩, ⟨some ⟨Main.Suit.Clubs, 2⟩⟩) ∧
      Main.Foundation.pop ⟨some ⟨Main.Suit.Clubs, 1⟩⟩ = (none, ⟨none⟩) ∧
      Main.Foundation.pop ⟨none⟩ = (none, ⟨none⟩) ∧
      Lib.Foundation.pop ⟨some ⟨Lib.Suit.Spades, Lib.Rank.King⟩⟩ =
        (Except.ok ⟨Lib.Suit.Spades, Lib.Rank.King⟩, ⟨none⟩) :=
  ⟨rfl, rfl, rfl, rfl⟩

/-- C2 (code bug): a game state whose first foundation holds the Ace of
clubs passes the whole check sequence of `move_card` ('t' → 'q': source top
exists, destination legality holds) and yet the pop returns `None`, so the
`.unwrap()` panics. -/
theorem c2_foundation_pop_panics :
    Main.aceFoundationGame.topAt (.foundation 0) = some ⟨Main.Suit.Clubs, 1⟩ ∧
      Main.aceFoundationGame.legalAt (.freecell 0) ⟨Main.Suit.Clubs, 1⟩ = true ∧
      Main.get_stackable 't' = some (.foundation 0) ∧
      Main.get_stackable 'q' = some (.freecell 0) ∧
      Main.move_card Main.aceFoundationGame 't' 'q' = .panicked := by
  decide

/-- C3 counterexample: main.rs's `Pile::legal_push` accepts the 4 of
diamonds on top of the 5 of hearts even though both cards are red — the
claimed colour condition does not hold for the `Pile` implementation
(it compares suits instead). -/
theorem c3_claim_counterexample :
    Main.Pile.legal_push ⟨[⟨Main.Suit.Hearts, 5⟩]⟩ ⟨Main.Suit.Diamonds, 4⟩ = true ∧
      Main.Suit.isRed Main.Suit.Diamonds = Main.Suit.isRed Main.Suit.Hearts ∧
      (4 : Nat) + 1 = 5 := by
  decide

/-- C3 amended: the lib.rs `Tableau` satisfies the claim as stated (empty
pile accepts anything; otherwise colour must differ and the rank be one
less); the main.rs `Pile` instead requires the SUIT to differ, so
same-colour different-suit pushes are accepted. -/
theorem c3_tableau_rule_amended :
    (∀ c : Lib.Card, Lib.Tableau.legal ⟨[]⟩ c = true) ∧
      (∀ (t : Lib.Tableau) (c top : Lib.Card), t.cards.getLast? = some top →
        (t.legal c = true ↔ c.suit.colour ≠ top.suit.colour ∧ top.rank.prev = some c.rank)) ∧
      (∀ c : Main.Card, Main.Pile.legal_push ⟨[]⟩ c = true) ∧
      (∀ (p : Main.Pile) (c top : Main.Card), p.cards.getLast? = some top → 1 ≤ top.rank →
        (p.legal_push c = true ↔ c.suit ≠ top.suit ∧ c.rank + 1 = top.rank)) := by
  refine ⟨fun c => rfl, ?_, fun c => rfl, ?_⟩
  · intro t c top h
    simp only [Lib.Tableau.legal, h]
    cases hp : top.rank.prev with
    | none => simp [hp]
    | some p =>
        simp only [Bool.and_eq_true, decide_eq_true_eq]
        constructor
        · rintro ⟨h1, h2⟩
          exact ⟨h1, by rw [h2]⟩
        · rintro ⟨h1, h2⟩
          refine ⟨h1, ?_⟩
          injection h2 with h2
          exact h2.symm
  · intro p c top h htop
    simp only [Main.Pile.legal_push, h, Bool.and_eq_true, decide_eq_true_eq]
    constructor
    · rintro ⟨h1, h2⟩
      exact ⟨h1, by omega⟩
    · rintro ⟨h1, h2⟩
      exact ⟨h1, by omega⟩

theorem c3_tableau_rule_amended_witness :
    Main.Pile.legal_push ⟨[⟨Main.Suit.Hearts, 5⟩]⟩ ⟨Main.Suit.Clubs, 4⟩ = true :=
  (c3_tableau_rule_amended.2.2.2 ⟨[⟨Main.Suit.Hearts, 5⟩]⟩ ⟨Main.Suit.Clubs, 4⟩
    ⟨Main.Suit.Hearts, 5⟩ (by decide) (by decide)).mpr (by decide)

/-- C6 counterexample: main.rs's `push` implementations never check
legality: pushing the 2 of hearts onto an occupied freecell is illegal by
`legal_push`, yet `push` overwrites the held card (state changed, old card
silently destroyed, nothing handed back). -/
theorem c6_claim_counterexample :
    Main.Freecell.legal_push ⟨some ⟨Main.Suit.Clubs, 1⟩⟩ ⟨Main.Suit.Hearts, 2⟩ = false ∧
      Main.Freecell.push ⟨some ⟨Main.Suit.Clubs, 1⟩⟩ ⟨Main.Suit.Hearts, 2⟩ =
        ⟨some ⟨Main.Suit.Hearts, 2⟩⟩ ∧
      (⟨some ⟨Main.Suit.Hearts, 2⟩⟩ : Main.Freecell) ≠ ⟨some ⟨Main.Suit.Clubs, 1⟩⟩ ∧
      Main.Foundation.legal_push ⟨some ⟨Main.Suit.Clubs, 5⟩⟩ ⟨Main.Suit.Hearts, 9⟩ = false ∧
      Main.Foundation.push ⟨some ⟨Main.Suit.Clubs, 5⟩⟩ ⟨Main.Suit.Hearts, 9⟩ =
        ⟨some ⟨Main.Suit.Hearts, 9⟩⟩ := by
  decide

/-- C6 amended: the lib.rs pushes are atomic exactly as claimed (an illegal
card is handed back and the stack is untouched); the main.rs `push`
implementations are unconditional mutations that return nothing — there,
legality checking is the caller's job (`move_card` checks `legal_push`
before ever calling `push`). -/
theorem c6_push_atomicity_amended :
    (∀ (t : Lib.Tableau) (c : Lib.Card), t.legal c = false →
        Lib.Tableau.push t c = (Except.error c, t)) ∧
      (∀ (f : Lib.Foundation) (c : Lib.Card), f.legal c = false →
        Lib.Foundation.push f c = (Except.error c, f)) ∧
      (∀ (p : Main.Pile) (c : Main.Card), Main.Pile.push p c = ⟨p.cards ++ [c]⟩) ∧
      (∀ (f : Main.Freecell) (c : Main.Card), Main.Freecell.push f c = ⟨some c⟩) ∧
      (∀ (f : Main.Foundation) (c : Main.Card), Main.Foundation.push f c = ⟨some c⟩) := by
  refine ⟨?_, ?_, fun p c => rfl, fun f c => rfl, fun f c => rfl⟩
  · intro t c h
    simp [Lib.Tableau.push, h]
  · intro f c h
    simp [Lib.Foundation.push, h]

theorem c6_push_atomicity_amended_witness :
    Lib.Tableau.push ⟨[⟨Lib.Suit.Hearts, Lib.Rank.Five⟩]⟩ ⟨Lib.Suit.Diamonds, Lib.Rank.Four⟩ =
      (Except.error ⟨Lib.Suit.Diamonds, Lib.Rank.Four⟩, ⟨[⟨Lib.Suit.Hearts, Lib.Rank.Five⟩]⟩) :=
  c6_push_atomicity_amended.1 ⟨[⟨Lib.Suit.Hearts, Lib.Rank.Five⟩]⟩
    ⟨Lib.Suit.Diamonds, Lib.Rank.Four⟩ (by decide)

/-- C7 counterexample: `move_card` returns the bare `Err(())` for every
failure, so an unresolvable address ('z') and an empty source (freecell 'q'
of a fresh deal) produce IDENTICAL results — the failure kinds are not
distinguished. -/
theorem c7_claim_counterexample :
    Main.get_stackable 'z' = none ∧
      (Main.Game.new Main.deck).topAt (.freecell 0) = none ∧
      Main.move_card (Main.Game.new Main.deck) 'z' '1' =
        Main.move_card (Main.Game.new Main.deck) 'q' '1' ∧
      Main.move_card (Main.Game.new Main.deck) 'z' '1' = .err (Main.Game.new Main.deck) := by
  decide

/-- C7 amended: `move_card` signals every failure (unresolved address,
empty source, illegal move) with the same undifferentiated `Err(())`, and
on every such failure the game state is unchanged. -/
theorem c7_move_errors_amended :
    ∀ (g : Main.Game) (fromKey toKey : Char) (g' : Main.Game),
      Main.move_card g fromKey toKey = .err g' → g' = g := by
  intro g fk tk g' h
  unfold Main.move_card at h
  repeat' split at h
  all_goals cases h <;> rfl

theorem c7_move_errors_amended_witness :
    Main.move_card (Main.Game.new Main.deck) 'z' '1' = .err (Main.Game.new Main.deck) ∧
      Main.Game.new Main.deck = Main.Game.new Main.deck :=
  ⟨by decide, c7_move_errors_amended (Main.Game.new Main.deck) 'z' '1'
    (Main.Game.new Main.deck) (by decide)⟩

/-- C8: dealing any fixed 52-card sequence round-robin into the 8 tableau
piles sends card i to pile i mod 8: the piles are exactly the mod-8 index
slices of the sequence in their original order, the pile sizes are
7,7,7,7,6,6,6,6 (summing to 52), and every freecell and foundation of the
fresh game is empty — in both the main.rs deal (`deal_cards`) and the
lib.rs deal (`Game::new`'s `illegal_push` loop). -/
theorem c8_deal_round_robin :
    ∀ (a0 a1 a2 a3 a4 a5 a6 a7 a8 a9 a10 a11 a12 a13 a14 a15 a16 a17 a18 a19 a20 a21 a22 a23 a24 a25 a26 a27 a28 a29 a30 a31 a32 a33 a34 a35 a36 a37 a38 a39 a40 a41 a42 a43 a44 a45 a46 a47 a48 a49 a50 a51 : Main.Card)
      (b0 b1 b2 b3 b4 b5 b6 b7 b8 b9 b10 b11 b12 b13 b14 b15 b16 b17 b18 b19 b20 b21 b22 b23 b24 b25 b26 b27 b28 b29 b30 b31 b32 b33 b34 b35 b36 b37 b38 b39 b40 b41 b42 b43 b44 b45 b46 b47 b48 b49 b50 b51 : Lib.Card),
      Main.Game.new [a0, a1, a2, a3, a4, a5, a6, a7, a8, a9, a10, a11, a12, a13, a14, a15, a16, a17, a18, a19, a20, a21, a22, a23, a24, a25, a26, a27, a28, a29, a30, a31, a32, a33, a34, a35, a36, a37, a38, a39, a40, a41, a42, a43, a44, a45, a46, a47, a48, a49, a50, a51] =
        Main.Game.mk
          [⟨[a0, a8, a16, a24, a32, a40, a48]⟩,
       ⟨[a1, a9, a17, a25, a33, a41, a49]⟩,
       ⟨[a2, a10, a18, a26, a34, a42, a50]⟩,
       ⟨[a3, a11, a19, a27, a35, a43, a51]⟩,
       ⟨[a4, a12, a20, a28, a36, a44]⟩,
       ⟨[a5, a13, a21, a29, a37, a45]⟩,
       ⟨[a6, a14, a22, a30, a38, a46]⟩,
       ⟨[a7, a15, a23, a31, a39, a47]⟩]
          (List.replicate 4 ⟨none⟩) (List.replicate 4 ⟨none⟩) ∧
      (Main.deal_cards [a0, a1, a2, a3, a4, a5, a6, a7, a8, a9, a10, a11, a12, a13, a14, a15, a16, a17, a18, a19, a20, a21, a22, a23, a24, a25, a26, a27, a28, a29, a30, a31, a32, a33, a34, a35, a36, a37, a38, a39, a40, a41, a42, a43, a44, a45, a46, a47, a48, a49, a50, a51] 8).map List.length =
        [7, 7, 7, 7, 6, 6, 6, 6] ∧
      ((Main.deal_cards [a0, a1, a2, a3, a4, a5, a6, a7, a8, a9, a10, a11, a12, a13, a14, a15, a16, a17, a18, a19, a20, a21, a22, a23, a24, a25, a26, a27, a28, a29, a30, a31, a32, a33, a34, a35, a36, a37, a38, a39, a40, a41, a42, a43, a44, a45, a46, a47, a48, a49, a50, a51] 8).map List.length).sum = 52 ∧
      Lib.Game.new [b0, b1, b2, b3, b4, b5, b6, b7, b8, b9, b10, b11, b12, b13, b14, b15, b16, b17, b18, b19, b20, b21, b22, b23, b24, b25, b26, b27, b28, b29, b30, b31, b32, b33, b34, b35, b36, b37, b38, b39, b40, b41, b42, b43, b44, b45, b46, b47, b48, b49, b50, b51] =
        Lib.Game.mk (List.replicate 4 none) (List.replicate 4 ⟨none⟩)
          [⟨[b0, b8, b16, b24, b32, b40, b48]⟩,
       ⟨[b1, b9, b17, b25, b33, b41, b49]⟩,
       ⟨[b2, b10, b18, b26, b34, b42, b50]⟩,
       ⟨[b3, b11, b19, b27, b35, b43, b51]⟩,
       ⟨[b4, b12, b20, b28, b36, b44]⟩,
       ⟨[b5, b13, b21, b29, b37, b45]⟩,
       ⟨[b6, b14, b22, b30, b38, b46]⟩,
       ⟨[b7, b15, b23, b31, b39, b47]⟩] := by
  intros
  refine ⟨?_, ?_, ?_, ?_⟩ <;>
    simp [Main.Game.new, Main.deal_cards, Main.deal_go, Lib.Game.new, Lib.deal_go,
      Lib.Tableau.illegal_push, List.getD, List.replicate]


/-- C1: starting from a fresh deal of any permutation of the 52-card deck,
any sequence of `move_card` calls — each one succeeding or being rejected,
never panicking — leaves the multiset of (suit, rank) combinations held
across all tableau piles, freecells and foundations equal to the full
52-card deck, in which each combination appears exactly once (the deck
multiset is `Nodup` of cardinality 52): no duplication, no loss. -/
theorem c1_card_conservation (deckP : List Main.Card) (hperm : deckP.Perm Main.deck)
    (moves : List (Char × Char)) :
    (moves.foldl Main.stepO (some (Main.Game.new deckP))).map Main.Game.allCards
      = some (Main.deck : Multiset Main.Card) ∧
      (Main.deck : Multiset Main.Card).Nodup ∧
      Multiset.card (Main.deck : Multiset Main.Card) = 52 := by
  have hranks : ∀ c ∈ deckP, 1 ≤ c.rank := fun c hc =>
    Main.deck_rank_pos c (hperm.mem_iff.mp hc)
  refine ⟨?_, by decide, by decide⟩
  rw [Main.foldl_stepO_conserves moves _ (Main.Inv_new deckP hranks),
    Main.allCards_new, Multiset.coe_eq_coe.mpr hperm]

theorem c1_card_conservation_witness :
    Main.deck.Perm Main.deck ∧
      ([('1', 'q'), ('2', '1')].foldl Main.stepO
        (some (Main.Game.new Main.deck))).map Main.Game.allCards
        = some (Main.deck : Multiset Main.Card) :=
  ⟨List.Perm.refl _,
    (c1_card_conservation Main.deck (List.Perm.refl _) [('1', 'q'), ('2', '1')]).1⟩

end Solitaire
